import Mathlib

/-!
Verification of the process-graph wiring engine of flowcraft/assemblerflow
(`generator/process.py`).  The Python classes `Process`, `Compiler` and
`Init` are shallowly embedded: a stage is a `Proc` record, Python dicts
become association lists with Python's insertion-order update semantics,
and every wiring method becomes a pure Lean function from the old stage
state to the new one.  Methods that can raise (`ProcessError`, `KeyError`)
return `Except`/`Option`.  External collaborators (jinja2 rendering, the
filesystem probe for the template file) are parameters of the embedding.
-/

/-- Python string truthiness for an optional string attribute: `None` and
the empty string are falsy. -/
def pyFalsyStr : Option String → Bool
  | none => true
  | some s => s = ""

/-- Rendering of an optional string attribute inside a format call:
Python's `str` prints `None` for the missing value. -/
def pyStrOpt : Option String → String
  | none => "None"
  | some s => s

/-- Decimal digits of a positive number, least significant first.
`0` yields the empty list; callers special-case zero. -/
def decDigitsRev : Nat → List Nat
  | 0 => []
  | n + 1 => ((n + 1) % 10) :: decDigitsRev ((n + 1) / 10)
decreasing_by exact Nat.div_lt_self (Nat.succ_pos n) (by decide)

/-- Character for one decimal digit (`0`–`9` land in `'0'`–`'9'`). -/
def decDigitChar (d : Nat) : Char := Char.ofNat (48 + d)

/-- Decimal rendering of a natural number, as Python's `str` prints an
`int`: most significant digit first, `0` printed as `"0"`. -/
def natDecStr (n : Nat) : String :=
  if n = 0 then "0" else String.mk (((decDigitsRev n).reverse).map decDigitChar)

/-- Rendering of an optional numeric attribute (the stage's `lane`):
Python's `str` prints `None` for the missing value. -/
def pyStrOptNat : Option Nat → String
  | none => "None"
  | some n => natDecStr n

/-- Python dict item assignment `d[k] = v` on an association list: replace
the value in place when the key is present, append otherwise. -/
def dictInsert {α : Type} (d : List (String × α)) (k : String) (v : α) :
    List (String × α) :=
  if d.any (fun kv => kv.1 = k) then
    d.map (fun kv => if kv.1 = k then (k, v) else kv)
  else d ++ [(k, v)]

/-- Python dict merge as in a double-splat expression: every key of `upd`
is assigned into `d` in order, overriding existing keys in place. -/
def dictUpdate {α : Type} (d upd : List (String × α)) : List (String × α) :=
  upd.foldl (fun acc kv => dictInsert acc kv.1 kv.2) d

/-- Python `d.get(k)` on an association list. -/
def pyGet {α : Type} (d : List (String × α)) (k : String) : Option α :=
  (d.find? (fun kv => kv.1 = k)).map (fun kv => kv.2)

/-- Python `sorted(list(set(l)))` for a list of strings: distinct elements
in lexicographic (code-point) order, which is also Lean's `String` order. -/
def sortedDedup (l : List String) : List String :=
  List.insertionSort (fun a b => a ≤ b) l.dedup

/-- One entry of the default-parameter table `Process.params`, as written
by the wiring methods. -/
structure ParamVal where
  default : String
  description : String
deriving DecidableEq, Repr

/-- One entry of the type registry `Process.RAW_MAPPING`. -/
structure RawEntry where
  params : String
  description : String
  default_value : String
  channel : String
  channel_str : String
  checks : String
deriving DecidableEq, Repr

/-- The stage record: the mutable attributes of a `Process` instance that
the wiring methods read or write.  Attributes that none of the modelled
methods touch (`dependencies`, `directives`, `link_start`, `link_end`,
`secondary_inputs`, `ignore_type`, `ignore_pid`) are omitted.  Dicts keep
Python's insertion order, hence the association lists.  The rendered
template path is filesystem state and stays outside the model. -/
structure Proc where
  template : String
  pid : Option String
  lane : Option Nat
  input_type : Option String
  output_type : Option String
  input_channel : Option String
  output_channel : Option String
  status_channels : List String
  status_strs : List String
  forks : List String
  main_forks : List String
  params : List (String × ParamVal)
  context : List (String × String)
deriving DecidableEq, Repr

/-- State of a fresh stage after `Process.__init__` (pure fields only). -/
def Process.init (template : String) : Proc :=
  { template := template
    pid := none
    lane := none
    input_type := none
    output_type := none
    input_channel := none
    output_channel := none
    status_channels := ["STATUS_" ++ template]
    status_strs := []
    forks := []
    main_forks := []
    params := []
    context := [] }

/-- The fork-declaration string `"\n{}.{}{{ {} }}\n".format(source, op,
";".join(sinks))` shared by `set_channels`, `update_main_forks`,
`set_secondary_channel` and `Init.set_raw_inputs`. -/
def forkDecl (source op : String) (sinks : List String) : String :=
  "\n" ++ source ++ "." ++ op ++ "\x7b " ++ String.intercalate ";" sinks ++ " \x7d\n"

/-- Operator choice shared by every fan-out emitter: `set` for a single
sink, `into` otherwise. -/
def forkOp (sinks : List String) : String :=
  if sinks.length = 1 then "set" else "into"

/-- The `fastq` entry of `Process.RAW_MAPPING` (adjacent Python string
literals concatenated; a doubled brace in the Python literal is a stored
doubled brace, later collapsed by `str.format`). -/
def rawEntryFastq : RawEntry :=
  { params := "fastq"
    description := "Path expression to paired-end fastq files. (default: $params.fastq)"
    default_value := "'fastq/*_\x7b1,2\x7d.*'"
    channel := "IN_fastq_raw"
    channel_str := "Channel.fromFilePairs(params.\x7b0\x7d).ifEmpty \x7b\x7b exit 1, \"No fastq files provided with pattern:'$\x7b\x7bparams.\x7b0\x7d\x7d\x7d'\" \x7d\x7d"
    checks := "if (params.\x7b0\x7d instanceof Boolean)\x7b\x7bexit 1, \"'\x7b0\x7d' must be a path pattern. Provide value:'$params.\x7b0\x7d'\"\x7d\x7d\nif (!params.\x7b0\x7d)\x7b\x7b exit 1, \"'\x7b0\x7d' parameter missing\"\x7d\x7d" }

/-- The `fasta` entry of `Process.RAW_MAPPING`. -/
def rawEntryFasta : RawEntry :=
  { params := "fasta"
    description := "Path fasta files. (default: $params.fastq)"
    default_value := "'fasta/*.fasta'"
    channel := "IN_fasta_raw"
    channel_str := "Channel.fromPath(params.\x7b0\x7d).map\x7b\x7b it -> file(it).exists() ? [it.toString().tokenize('/').last().tokenize('.').first(), it] : null \x7d\x7d.ifEmpty \x7b\x7b exit 1, \"No fasta files provided with pattern:'$\x7b\x7bparams.\x7b0\x7d\x7d\x7d'\" \x7d\x7d"
    checks := "if (params.\x7b0\x7d instanceof Boolean)\x7b\x7bexit 1, \"'\x7b0\x7d' must be a path pattern. Provide value:'$params.\x7b0\x7d'\"\x7d\x7d\nif (!params.\x7b0\x7d)\x7b\x7b exit 1, \"'\x7b0\x7d' parameter missing\"\x7d\x7d" }

/-- The `accessions` entry of `Process.RAW_MAPPING`. -/
def rawEntryAccessions : RawEntry :=
  { params := "accessions"
    description := "Path file with accessions, one perline. (default: $params.fastq)"
    default_value := "null"
    channel := "IN_accessions_raw"
    channel_str := "Channel.fromPath(params.\x7b0\x7d).ifEmpty \x7b\x7b exit 1, \"No accessions file provided with path:'$\x7b\x7bparams.\x7b0\x7d\x7d\x7d'\" \x7d\x7d"
    checks := "if (!params.\x7b0\x7d)\x7b\x7b exit 1, \"'\x7b0\x7d' parameter missing\" \x7d\x7d\n" }

/-- The type registry `Process.RAW_MAPPING`, in source order. -/
def RAW_MAPPING : List (String × RawEntry) :=
  [("fastq", rawEntryFastq), ("fasta", rawEntryFasta),
   ("accessions", rawEntryAccessions)]

/-- Python `RAW_MAPPING[itype]` membership test / lookup. -/
def rawLookup (itype : String) : Option RawEntry :=
  pyGet RAW_MAPPING itype

/-- Embedding of `Process.set_main_channel_names`. -/
def set_main_channel_names (p : Proc) (input_suffix output_suffix : String)
    (lane : Nat) : Proc :=
  { p with
      input_channel := some (p.template ++ "_in_" ++ input_suffix)
      output_channel := some (p.template ++ "_out_" ++ output_suffix)
      lane := some lane }

/-- The channel dictionary `Process.get_user_channel` returns on success:
the caller's channel merged with the six registry fields (the key sets are
disjoint, so the Python double-splat merge is a plain record). -/
structure UserChannel where
  input_channel : String
  params : String
  description : String
  default_value : String
  channel : String
  channel_str : String
  checks : String
deriving DecidableEq, Repr

/-- Embedding of `Process.get_user_channel`: resolves the input type with
Python truthiness (an absent or empty argument falls back to the stage's
`input_type`), and on a registry hit registers the default parameter and
returns the merged channel dictionary; otherwise returns `None` with the
stage untouched. -/
def get_user_channel (p : Proc) (input_channel : String)
    (input_type : Option String) : Option UserChannel × Proc :=
  let itype : Option String :=
    match input_type with
    | some t => if t = "" then p.input_type else some t
    | none => p.input_type
  match itype with
  | none => (none, p)
  | some t =>
    match rawLookup t with
    | none => (none, p)
    | some ci =>
      let entry : ParamVal :=
        { default := ci.default_value, description := ci.description }
      (some { input_channel := input_channel
              params := ci.params
              description := ci.description
              default_value := ci.default_value
              channel := ci.channel
              channel_str := ci.channel_str
              checks := ci.checks },
       { p with params := dictInsert p.params ci.params entry })

/-- Embedding of the `Process.template_str` property.  The jinja2 `render`
call is an external collaborator, passed in as `renderFn`; the guard on an
unpopulated context is the modelled behaviour. -/
def template_str (renderFn : String → List (String × String) → String)
    (p : Proc) : Except String String :=
  if p.context = [] then
    Except.error "Channels must be setup first using the set_channels method"
  else
    Except.ok (renderFn p.template p.context)

/-- Embedding of `Process.set_channels`.  Keyword arguments are the
already-stringified key/value pairs of the Python call; `kwargs.get("pid")`
becomes `pyGet kwargs "pid"`. -/
def set_channels (p : Proc) (kwargs : List (String × String)) : Proc :=
  let pid : Option String :=
    if pyFalsyStr p.pid then
      some (pyStrOptNat p.lane ++ "_" ++ pyStrOpt (pyGet kwargs "pid"))
    else p.pid
  let status_strs :=
    p.status_strs ++ p.status_channels.map (fun i => i ++ "_" ++ pyStrOpt pid)
  let forks :=
    if p.main_forks ≠ [] then
      [forkDecl (pyStrOpt p.output_channel) (forkOp p.main_forks) p.main_forks]
    else p.forks
  { p with
      pid := pid
      status_strs := status_strs
      forks := forks
      context := dictUpdate kwargs
        [("input_channel", pyStrOpt p.input_channel),
         ("output_channel", pyStrOpt p.output_channel),
         ("template", p.template),
         ("forks", String.intercalate "\n" forks),
         ("pid", pyStrOpt pid)] }

/-- Embedding of `Process.update_main_forks`: on the first call the current
output channel is recorded as the head of `main_forks` and the output
channel is renamed with a leading underscore; the sink is appended and the
single fork declaration is recomputed from the full list. -/
def update_main_forks (p : Proc) (sink : String) : Proc :=
  let st :=
    if p.main_forks = [] then
      { p with
          main_forks := [pyStrOpt p.output_channel]
          output_channel := some ("_" ++ pyStrOpt p.output_channel) }
    else p
  let mf := st.main_forks ++ [sink]
  let decl := forkDecl (pyStrOpt st.output_channel) (forkOp mf) mf
  { st with
      main_forks := mf
      forks := [decl]
      context := dictUpdate st.context
        [("forks", decl), ("output_channel", pyStrOpt st.output_channel)] }

/-- Embedding of `Process.set_secondary_channel`: the source is suffixed
with the stage position, the sink list is deduplicated and sorted, and the
declaration is appended to the accumulated fork list. -/
def set_secondary_channel (p : Proc) (source : String)
    (channel_list : List String) : Proc :=
  let src := source ++ "_" ++ pyStrOpt p.pid
  let cl := sortedDedup channel_list
  let forks := p.forks ++ [forkDecl src (forkOp cl) cl]
  { p with
      forks := forks
      context := dictUpdate p.context
        [("forks", String.intercalate "\n" forks)] }

/-- Embedding of `Compiler.set_compiler_channels`: error on an empty list,
the single name verbatim for one channel, and a `mix` expression with the
first name as receiver otherwise.  The context is replaced, not merged. -/
def set_compiler_channels (p : Proc) (channel_list : List String) :
    Except String Proc :=
  match channel_list with
  | [] => Except.error "At least one status channel must be provided to include this process in the pipeline"
  | [c] => Except.ok { p with context := [("compile_channels", c)] }
  | c :: d :: rest =>
    Except.ok { p with context :=
      [("compile_channels",
        c ++ ".mix(" ++ String.intercalate "," (d :: rest) ++ ")")] }

/-- Scanner for Python `str.format` with one positional argument, as used
on the registry's `channel_str` templates: a doubled brace is an escaped
literal brace and the field reference of argument `0` is replaced by the
argument.  The templates in this file are well formed, so the fall-through
case only ever forwards ordinary characters. -/
def pyFormatAux (arg : List Char) : List Char → List Char
  | '\x7b' :: '\x7b' :: rest => '\x7b' :: pyFormatAux arg rest
  | '\x7d' :: '\x7d' :: rest => '\x7d' :: pyFormatAux arg rest
  | '\x7b' :: '0' :: '\x7d' :: rest => arg ++ pyFormatAux arg rest
  | c :: rest => c :: pyFormatAux arg rest
  | [] => []

/-- Python `template.format(arg)` for one positional argument. -/
def pyFormat (template arg : String) : String :=
  String.mk (pyFormatAux arg.data template.data)

/-- One value of the dict handed to `Init.set_raw_inputs` (the keys of the
inner dict that the method actually reads). -/
structure RawInputEl where
  channel_str : String
  channel : String
  raw_forks : List String
deriving DecidableEq, Repr

/-- Loop body of `Init.set_raw_inputs`: walks the raw-input dict in
insertion order, collecting the `channel_str` declarations, registering
the type's default parameter and appending one fan-out declaration per
entry; a type missing from the registry is a `KeyError`. -/
def set_raw_inputs_loop :
    Proc → List String → List (String × RawInputEl) →
    Option (Proc × List String)
  | p, acc, [] => some (p, acc)
  | p, acc, (input_type, el) :: rest =>
    match rawLookup input_type with
    | none => none
    | some raw_channel =>
      let entry : ParamVal :=
        { default := raw_channel.default_value
          description := raw_channel.description }
      let q : Proc :=
        { p with
            params := dictInsert p.params input_type entry
            forks := p.forks ++ [forkDecl el.channel (forkOp el.raw_forks) el.raw_forks] }
      set_raw_inputs_loop q (acc ++ [el.channel_str]) rest

/-- Embedding of `Init.set_raw_inputs`. -/
def set_raw_inputs (p : Proc) (raw_input : List (String × RawInputEl)) :
    Option Proc :=
  (set_raw_inputs_loop p [] raw_input).map (fun qp =>
    let upd := [("forks", String.intercalate "\n" qp.1.forks),
                ("main_inputs", String.intercalate "\n" qp.2)]
    { qp.1 with context := dictUpdate qp.1.context upd })

/-- One value of the dict handed to `Init.set_extra_inputs`. -/
structure ExtraInfo where
  input_type : String
  channels : List String
deriving DecidableEq, Repr

/-- Loop body of `Init.set_extra_inputs`: per parameter, registers the
type's defaults under the parameter name, emits the extra-input channel
definition (formatting `channel_str` with the parameter name) and the
fan-out of that channel into the destination list, in insertion order. -/
def set_extra_inputs_loop :
    Proc → List String → List (String × ExtraInfo) →
    Option (Proc × List String)
  | p, acc, [] => some (p, acc)
  | p, acc, (param, info) :: rest =>
    match rawLookup info.input_type with
    | none => none
    | some raw_channel =>
      let entry : ParamVal :=
        { default := raw_channel.default_value
          description := raw_channel.description }
      let q : Proc := { p with params := dictInsert p.params param entry }
      let channel_name := "IN_" ++ param ++ "_extraInput"
      let cdef := channel_name ++ " = " ++ pyFormat raw_channel.channel_str param
      let cfork := channel_name ++ "." ++ forkOp info.channels ++ "\x7b "
        ++ String.intercalate ";" info.channels ++ " \x7d"
      set_extra_inputs_loop q (acc ++ [cdef, cfork]) rest

/-- Embedding of `Init.set_extra_inputs`. -/
def set_extra_inputs (p : Proc) (channel_dict : List (String × ExtraInfo)) :
    Option Proc :=
  (set_extra_inputs_loop p [] channel_dict).map (fun qp =>
    let upd := [("extra_inputs", String.intercalate "\n" qp.2)]
    { qp.1 with context := dictUpdate qp.1.context upd })

/-- Modelled from the spec: the external graph builder (the pipeline
engine, which is not part of this repository slice) supplies the channel
suffix of a stage from its lane and sequence coordinates, as the decimal
lane, an underscore, and the decimal sequence number — the same shape
`set_channels` caches as the stage position. -/
def channelSuffix (lane seq : Nat) : String :=
  natDecStr lane ++ "_" ++ natDecStr seq

/-- The fan-out declarations `Init.set_raw_inputs` appends, one per
raw-input entry in insertion order, each with the sink list exactly as
provided. -/
def rawForkDecls (entries : List (String × RawInputEl)) : List String :=
  entries.map (fun te => forkDecl te.2.channel (forkOp te.2.raw_forks) te.2.raw_forks)

/-- The extra-input declarations `Init.set_extra_inputs` accumulates: per
parameter the channel definition followed by its fan-out, in insertion
order, each sink list exactly as provided. -/
def extraDecls : List (String × ExtraInfo) → List String
  | [] => []
  | (param, info) :: rest =>
    let cs := ((rawLookup info.input_type).map (fun rc => rc.channel_str)).getD ""
    let channel_name := "IN_" ++ param ++ "_extraInput"
    (channel_name ++ " = " ++ pyFormat cs param) ::
      (channel_name ++ "." ++ forkOp info.channels ++ "\x7b "
        ++ String.intercalate ";" info.channels ++ " \x7d") :: extraDecls rest

/-- A stage in the state the testable-property section of the spec starts
from: output channel `mlst_out_1_2`, no main forks yet. -/
def mlstStage : Proc :=
  { Process.init "mlst" with output_channel := some "mlst_out_1_2" }

/-- A fixture for the raw-input counterexample: sinks given in
non-canonical order. -/
def rawCexEl : RawInputEl :=
  { channel_str := "XSTR", channel := "IN_fastq_raw",
    raw_forks := ["b_sink", "a_sink"] }

/-- A fixture for the extra-input theorem: two destination channels in
non-canonical order. -/
def extraCexInfo : ExtraInfo :=
  { input_type := "fasta", channels := ["b_chan", "a_chan"] }

/-- A stage that already carries a cached position. -/
def fastqcCached : Proc :=
  { Process.init "fastqc" with pid := some "1_2" }

/-- A stage with a lane but no position yet. -/
def trimmomaticFresh : Proc :=
  { Process.init "trimmomatic" with lane := some 1 }

theorem sortedDedup_sorted (l : List String) :
    List.Sorted (fun a b => a ≤ b) (sortedDedup l) :=
  List.sorted_insertionSort _ _

theorem sortedDedup_nodup (l : List String) : (sortedDedup l).Nodup :=
  (List.perm_insertionSort _ _).nodup_iff.mpr (List.nodup_dedup l)

theorem sortedDedup_mem (l : List String) (x : String) :
    x ∈ sortedDedup l ↔ x ∈ l := by
  simp [sortedDedup]

/-- The canonical sink list depends only on the set of sinks. -/
theorem sortedDedup_ext (l1 l2 : List String)
    (h : ∀ x, x ∈ l1 ↔ x ∈ l2) : sortedDedup l1 = sortedDedup l2 := by
  apply List.eq_of_perm_of_sorted ?_ (sortedDedup_sorted l1) (sortedDedup_sorted l2)
  refine (List.perm_ext_iff_of_nodup (sortedDedup_nodup l1) (sortedDedup_nodup l2)).mpr ?_
  intro a
  rw [sortedDedup_mem, sortedDedup_mem]
  exact h a

theorem find_map_replace {α : Type} (k : String) (v : α) :
    ∀ d : List (String × α), d.any (fun kv => kv.1 = k) = true →
      (d.map (fun kv => if kv.1 = k then (k, v) else kv)).find?
        (fun kv => kv.1 = k) = some (k, v) := by
  intro d
  induction d with
  | nil => simp
  | cons kv tl ih =>
    intro hany
    by_cases hk : kv.1 = k
    · simp [hk, List.find?]
    · have htl : tl.any (fun kv => kv.1 = k) = true := by
        simpa [List.any_cons, hk] using hany
      simpa [List.find?, hk] using ih htl

theorem find_append_single {α : Type} (k : String) (v : α) :
    ∀ d : List (String × α), d.any (fun kv => kv.1 = k) = false →
      (d ++ [(k, v)]).find? (fun kv => kv.1 = k) = some (k, v) := by
  intro d
  induction d with
  | nil => simp [List.find?]
  | cons kv tl ih =>
    intro hany
    simp only [List.any_cons, Bool.or_eq_false_iff] at hany
    have hk : ¬ kv.1 = k := by simpa using hany.1
    simpa [List.find?, hk] using ih (by simpa using hany.2)

theorem pyGet_dictInsert {α : Type} (d : List (String × α)) (k : String) (v : α) :
    pyGet (dictInsert d k v) k = some v := by
  unfold dictInsert pyGet
  by_cases hany : d.any (fun kv => kv.1 = k) = true
  · simp only [hany, if_true]
    rw [find_map_replace k v d hany]
    rfl
  · simp only [Bool.not_eq_true] at hany
    simp only [hany, Bool.false_eq_true, if_false]
    rw [find_append_single k v d hany]
    rfl

theorem decDigitsRev_succ (n : Nat) :
    decDigitsRev (n + 1) = ((n + 1) % 10) :: decDigitsRev ((n + 1) / 10) := by
  rw [decDigitsRev]

theorem decDigitsRev_eq_nil {n : Nat} (h : decDigitsRev n = []) : n = 0 := by
  cases n with
  | zero => rfl
  | succ m => rw [decDigitsRev_succ] at h; exact absurd h (by simp)

theorem decDigitsRev_lt_ten (n : Nat) : ∀ d ∈ decDigitsRev n, d < 10 := by
  induction n using Nat.strong_induction_on with
  | _ n ih =>
    cases n with
    | zero => simp [decDigitsRev]
    | succ m =>
      rw [decDigitsRev_succ]
      intro d hd
      rcases List.mem_cons.mp hd with h | h
      · subst h; exact Nat.mod_lt _ (by decide)
      · exact ih ((m + 1) / 10) (Nat.div_lt_self (Nat.succ_pos m) (by decide)) d h

theorem decDigitsRev_inj (m : Nat) :
    ∀ n : Nat, decDigitsRev m = decDigitsRev n → m = n := by
  induction m using Nat.strong_induction_on with
  | _ m ih =>
    intro n h
    cases m with
    | zero =>
      cases n with
      | zero => rfl
      | succ k => rw [decDigitsRev_succ] at h; simp [decDigitsRev] at h
    | succ j =>
      cases n with
      | zero => rw [decDigitsRev_succ] at h; simp [decDigitsRev] at h
      | succ k =>
        rw [decDigitsRev_succ, decDigitsRev_succ] at h
        injection h with h1 h2
        have hd : (j + 1) / 10 = (k + 1) / 10 :=
          ih ((j + 1) / 10) (Nat.div_lt_self (Nat.succ_pos j) (by decide))
            ((k + 1) / 10) h2
        omega

theorem decDigitChar_injOn :
    ∀ a < 10, ∀ b < 10, decDigitChar a = decDigitChar b → a = b := by decide

theorem decDigitChar_ne_underscore : ∀ d < 10, decDigitChar d ≠ '_' := by decide

theorem map_decDigitChar_inj :
    ∀ l1 l2 : List Nat, (∀ d ∈ l1, d < 10) → (∀ d ∈ l2, d < 10) →
      l1.map decDigitChar = l2.map decDigitChar → l1 = l2 := by
  intro l1
  induction l1 with
  | nil =>
    intro l2 _ _ h
    cases l2 with
    | nil => rfl
    | cons b tl2 => simp at h
  | cons a tl ih =>
    intro l2 h1 h2 h
    cases l2 with
    | nil => simp at h
    | cons b tl2 =>
      simp only [List.map_cons, List.cons.injEq] at h
      have hab : a = b :=
        decDigitChar_injOn a (h1 a (by simp)) b (h2 b (by simp)) h.1
      have htl : tl = tl2 :=
        ih tl2 (fun d hd => h1 d (by simp [hd])) (fun d hd => h2 d (by simp [hd])) h.2
      simp [hab, htl]

theorem natDecStr_data (n : Nat) (h : n ≠ 0) :
    (natDecStr n).data = ((decDigitsRev n).reverse).map decDigitChar := by
  simp [natDecStr, h]

theorem natDecStr_no_underscore (n : Nat) : '_' ∉ (natDecStr n).data := by
  by_cases h : n = 0
  · subst h; decide
  · rw [natDecStr_data n h]
    intro hmem
    rcases List.mem_map.mp hmem with ⟨d, hd, he⟩
    exact decDigitChar_ne_underscore d
      (decDigitsRev_lt_ten n d (List.mem_reverse.mp hd)) he

theorem decDigitsRev_ne_single_zero (n : Nat) : decDigitsRev n ≠ [0] := by
  cases n with
  | zero => simp [decDigitsRev]
  | succ m =>
    rw [decDigitsRev_succ]
    intro h
    injection h with h1 h2
    have h3 : (m + 1) / 10 = 0 := decDigitsRev_eq_nil h2
    omega

theorem natDecStr_eq_zero_str {n : Nat} (hn : n ≠ 0) : natDecStr n ≠ "0" := by
  intro h
  have hd := congrArg String.data h
  rw [natDecStr_data n hn] at hd
  have h0 : ("0" : String).data = List.map decDigitChar [0] := by decide
  rw [h0] at hd
  have := map_decDigitChar_inj _ _
    (fun d hd' => decDigitsRev_lt_ten n d (List.mem_reverse.mp hd'))
    (by intro d hd'; simp at hd'; omega) hd
  have hrev : decDigitsRev n = [0] := by
    have := congrArg List.reverse this
    simpa using this
  exact decDigitsRev_ne_single_zero n hrev

theorem natDecStr_inj (m n : Nat) (h : natDecStr m = natDecStr n) : m = n := by
  by_cases hm : m = 0 <;> by_cases hn : n = 0
  · rw [hm, hn]
  · exfalso
    apply natDecStr_eq_zero_str hn
    rw [← h, hm]
    rfl
  · exfalso
    apply natDecStr_eq_zero_str hm
    rw [h, hn]
    rfl
  · have hd := congrArg String.data h
    rw [natDecStr_data m hm, natDecStr_data n hn] at hd
    have hrev := map_decDigitChar_inj _ _
      (fun d hd' => decDigitsRev_lt_ten m d (List.mem_reverse.mp hd'))
      (fun d hd' => decDigitsRev_lt_ten n d (List.mem_reverse.mp hd')) hd
    have : decDigitsRev m = decDigitsRev n := by
      have := congrArg List.reverse hrev
      simpa using this
    exact decDigitsRev_inj m n this

theorem append_underscore_split :
    ∀ a c b d : List Char, '_' ∉ a → '_' ∉ c →
      a ++ '_' :: b = c ++ '_' :: d → a = c ∧ b = d := by
  intro a
  induction a with
  | nil =>
    intro c b d _ hc h
    cases c with
    | nil => simpa using h
    | cons x xs =>
      rw [List.nil_append, List.cons_append] at h
      injection h with h1 h2
      exact absurd (h1 ▸ List.mem_cons_self x xs) hc
  | cons y ys ih =>
    intro c b d ha hc h
    cases c with
    | nil =>
      rw [List.cons_append, List.nil_append] at h
      injection h with h1 h2
      exact absurd (h1 ▸ List.mem_cons_self y ys) ha
    | cons x xs =>
      rw [List.cons_append, List.cons_append] at h
      injection h with h1 h2
      have ha' : '_' ∉ ys := fun hmem => ha (List.mem_cons_of_mem y hmem)
      have hc' : '_' ∉ xs := fun hmem => hc (List.mem_cons_of_mem x hmem)
      obtain ⟨hys, hbd⟩ := ih xs b d ha' hc' h2
      exact ⟨by rw [h1, hys], hbd⟩

theorem channelSuffix_inj (l1 s1 l2 s2 : Nat)
    (h : channelSuffix l1 s1 = channelSuffix l2 s2) : l1 = l2 ∧ s1 = s2 := by
  have hd := congrArg String.data h
  simp only [channelSuffix, String.data_append] at hd
  have hd' : (natDecStr l1).data ++ '_' :: (natDecStr s1).data =
      (natDecStr l2).data ++ '_' :: (natDecStr s2).data := by
    simpa [List.append_assoc] using hd
  obtain ⟨hL, hS⟩ := append_underscore_split _ _ _ _
    (natDecStr_no_underscore l1) (natDecStr_no_underscore l2) hd'
  exact ⟨natDecStr_inj _ _ (String.ext hL), natDecStr_inj _ _ (String.ext hS)⟩

theorem string_append_left_cancel (s a b : String) (h : s ++ a = s ++ b) :
    a = b := by
  have hd := congrArg String.data h
  simp only [String.data_append] at hd
  exact String.ext (List.append_cancel_left hd)

/-- C1, counterexample: on the worked example the first `update_main_forks`
call does not emit the claimed single-sink `set` declaration (the original
output name is recorded as an extra first sink, so the operator is already
`into`), and the second call does not emit the claimed sorted two-sink
list (the list keeps insertion order and the duplicate). -/
theorem update_main_forks_claimed_decls_refuted :
    (update_main_forks mlstStage "chewbbaca_in_1_3").forks =
      ["\n_mlst_out_1_2.into\x7b mlst_out_1_2;chewbbaca_in_1_3 \x7d\n"] ∧
    (update_main_forks mlstStage "chewbbaca_in_1_3").forks ≠
      ["\n_mlst_out_1_2.set\x7b chewbbaca_in_1_3 \x7d\n"] ∧
    (update_main_forks (update_main_forks mlstStage "chewbbaca_in_1_3")
        "mlst_out_1_2").forks ≠
      ["\n_mlst_out_1_2.into\x7b chewbbaca_in_1_3;mlst_out_1_2 \x7d\n"] := by
  refine ⟨by decide, by decide, by decide⟩

/-- C1, amended: the first `update_main_forks` call on the `mlst` stage
renames the output channel to `_mlst_out_1_2` and emits an `into`
declaration whose sink list starts with the recorded original output name
followed by the new sink; the second call appends its sink to that list in
insertion order, keeping duplicates and applying no sorting. -/
theorem update_main_forks_mlst_example :
    (update_main_forks mlstStage "chewbbaca_in_1_3").output_channel =
      some "_mlst_out_1_2" ∧
    (update_main_forks mlstStage "chewbbaca_in_1_3").forks =
      ["\n_mlst_out_1_2.into\x7b mlst_out_1_2;chewbbaca_in_1_3 \x7d\n"] ∧
    (update_main_forks (update_main_forks mlstStage "chewbbaca_in_1_3")
        "mlst_out_1_2").forks =
      ["\n_mlst_out_1_2.into\x7b mlst_out_1_2;chewbbaca_in_1_3;mlst_out_1_2 \x7d\n"] := by
  refine ⟨by decide, by decide, by decide⟩

/-- C2, counterexample: for the input list `S1`, `S2`, `S3` the compiled
expression stored in the context is `S1.mix(S2,S3)` — the nextflow `mix`
operator — not the claimed `S1.merge(S2,S3)`. -/
theorem set_compiler_channels_not_merge :
    set_compiler_channels (Process.init "status_compiler") ["S1", "S2", "S3"] =
      Except.ok { Process.init "status_compiler" with
        context := [("compile_channels", "S1.mix(S2,S3)")] } ∧
    ("S1.mix(S2,S3)" : String) ≠ "S1.merge(S2,S3)" := by
  refine ⟨rfl, by decide⟩

/-- C2, amended: for every list with at least two status-channel names the
compiler stores `first.mix(rest,...)` in the context, with the first list
element as the left operand and the remaining names joined by commas in
their original order. -/
theorem set_compiler_channels_mix_expression (p : Proc) (c d : String)
    (rest : List String) :
    set_compiler_channels p (c :: d :: rest) =
      Except.ok { p with context :=
        [("compile_channels",
          c ++ ".mix(" ++ String.intercalate "," (d :: rest) ++ ")")] } := rfl

/-- C5: the status compiler signals a build-time `ProcessError` on an empty
channel list, succeeds on every non-empty list, and for the singleton list
`S1` stores that name verbatim as the compiled expression. -/
theorem set_compiler_channels_empty_fails_nonempty_ok (p : Proc)
    (l : List String) (h : l ≠ []) :
    set_compiler_channels p [] = Except.error "At least one status channel must be provided to include this process in the pipeline" ∧
    (set_compiler_channels p l).isOk = true ∧
    set_compiler_channels p ["S1"] =
      Except.ok { p with context := [("compile_channels", "S1")] } := by
  refine ⟨rfl, ?_, rfl⟩
  match l, h with
  | [c], _ => rfl
  | c :: d :: rest, _ => rfl

/-- C5, witness at the singleton list. -/
theorem set_compiler_channels_empty_fails_nonempty_ok_witness :
    (["S1"] : List String) ≠ [] ∧
    (set_compiler_channels (Process.init "status_compiler") [] =
      Except.error "At least one status channel must be provided to include this process in the pipeline" ∧
    (set_compiler_channels (Process.init "status_compiler") ["S1"]).isOk = true ∧
    set_compiler_channels (Process.init "status_compiler") ["S1"] =
      Except.ok { Process.init "status_compiler" with
        context := [("compile_channels", "S1")] }) :=
  ⟨by decide,
   set_compiler_channels_empty_fails_nonempty_ok (Process.init "status_compiler")
     ["S1"] (by decide)⟩

/-- C9: reading the rendered template of a stage whose context was never
populated raises the `ProcessError` asking for `set_channels` first,
whatever the external rendering function is. -/
theorem template_str_empty_context_errors
    (renderFn : String → List (String × String) → String) (p : Proc)
    (h : p.context = []) :
    template_str renderFn p =
      Except.error "Channels must be setup first using the set_channels method" := by
  simp [template_str, h]

/-- C9, witness on a freshly constructed stage. -/
theorem template_str_empty_context_errors_witness :
    (Process.init "mlst").context = [] ∧
    template_str (fun _ _ => "") (Process.init "mlst") =
      Except.error "Channels must be setup first using the set_channels method" :=
  ⟨rfl, template_str_empty_context_errors (fun _ _ => "") (Process.init "mlst") rfl⟩

theorem forkOp_cons_cons (a b : String) (l : List String) :
    forkOp (a :: b :: l) = "into" := by
  simp [forkOp]

/-- Running further `update_main_forks` calls on a stage whose main-fork
list already has at least two members keeps the renamed output channel and
appends each sink at the tail of the fan-out list. -/
theorem update_main_forks_run (rest : List String) :
    ∀ (q : Proc) (o a b : String) (tl : List String),
      q.output_channel = some o → q.main_forks = a :: b :: tl →
      q.forks = [forkDecl o "into" (a :: b :: tl)] →
      (rest.foldl update_main_forks q).output_channel = some o ∧
      (rest.foldl update_main_forks q).main_forks = a :: b :: (tl ++ rest) ∧
      (rest.foldl update_main_forks q).forks =
        [forkDecl o "into" (a :: b :: (tl ++ rest))] := by
  induction rest with
  | nil =>
    intro q o a b tl h1 h2 h3
    simp [h1, h2, h3]
  | cons x xs ih =>
    intro q o a b tl h1 h2 h3
    rw [List.foldl_cons]
    have hne : q.main_forks ≠ [] := by rw [h2]; simp
    have step1 : (update_main_forks q x).output_channel = some o := by
      simp [update_main_forks, hne, h1]
    have step2 : (update_main_forks q x).main_forks = a :: b :: (tl ++ [x]) := by
      simp [update_main_forks, hne, h2]
    have step3 : (update_main_forks q x).forks =
        [forkDecl o "into" (a :: b :: (tl ++ [x]))] := by
      simp [update_main_forks, hne, h1, h2, pyStrOpt, forkOp_cons_cons]
    have := ih (update_main_forks q x) o a b (tl ++ [x]) step1 step2 step3
    simpa [List.append_assoc] using this

/-- C3, counterexample: after a single `update_main_forks` call on the
`mlst` stage the final element of the emitted fan-out target list is the
new sink, not the unprefixed original output-channel name — the original
name is placed first. -/
theorem main_fork_last_element_refuted :
    (update_main_forks mlstStage "chewbbaca_in_1_3").main_forks.getLast? =
      some "chewbbaca_in_1_3" ∧
    (update_main_forks mlstStage "chewbbaca_in_1_3").main_forks.getLast? ≠
      some "mlst_out_1_2" ∧
    (update_main_forks mlstStage "chewbbaca_in_1_3").forks =
      ["\n_mlst_out_1_2.into\x7b " ++ String.intercalate ";"
        (update_main_forks mlstStage "chewbbaca_in_1_3").main_forks ++ " \x7d\n"] := by
  refine ⟨by decide, by decide, by decide⟩

/-- C3, amended: for every stage with an assigned output channel and no
main forks yet, any non-empty sequence of `update_main_forks` calls leaves
the stage with the underscore-prefixed output channel and a single `into`
fork declaration whose target list carries the unprefixed original
output-channel name as its FIRST element, followed by the sinks in call
order. -/
theorem main_fork_list_starts_with_original (p : Proc) (oc s : String)
    (rest : List String) (h1 : p.main_forks = [])
    (h2 : p.output_channel = some oc) :
    ((s :: rest).foldl update_main_forks p).output_channel =
      some ("_" ++ oc) ∧
    ((s :: rest).foldl update_main_forks p).main_forks = oc :: s :: rest ∧
    ((s :: rest).foldl update_main_forks p).forks =
      [forkDecl ("_" ++ oc) "into" (oc :: s :: rest)] := by
  rw [List.foldl_cons]
  have step1 : (update_main_forks p s).output_channel = some ("_" ++ oc) := by
    simp [update_main_forks, h1, h2, pyStrOpt]
  have step2 : (update_main_forks p s).main_forks = oc :: s :: [] := by
    simp [update_main_forks, h1, h2, pyStrOpt]
  have step3 : (update_main_forks p s).forks =
      [forkDecl ("_" ++ oc) "into" (oc :: s :: [])] := by
    simp [update_main_forks, h1, h2, pyStrOpt, forkOp_cons_cons]
  have := update_main_forks_run rest (update_main_forks p s) ("_" ++ oc)
    oc s [] step1 step2 step3
  simpa using this

/-- C3, witness: one call on the `mlst` stage. -/
theorem main_fork_list_starts_with_original_witness :
    (mlstStage.main_forks = [] ∧ mlstStage.output_channel = some "mlst_out_1_2") ∧
    ((["chewbbaca_in_1_3"].foldl update_main_forks mlstStage).output_channel =
      some ("_" ++ "mlst_out_1_2") ∧
    (["chewbbaca_in_1_3"].foldl update_main_forks mlstStage).main_forks =
      "mlst_out_1_2" :: "chewbbaca_in_1_3" :: [] ∧
    (["chewbbaca_in_1_3"].foldl update_main_forks mlstStage).forks =
      [forkDecl ("_" ++ "mlst_out_1_2") "into"
        ("mlst_out_1_2" :: "chewbbaca_in_1_3" :: [])]) :=
  ⟨⟨rfl, rfl⟩,
   main_fork_list_starts_with_original mlstStage "mlst_out_1_2"
     "chewbbaca_in_1_3" [] rfl rfl⟩

/-- C4: the secondary-channel fork is a function of the sink SET — two sink
lists equal as sets yield identical stage states — because the sink list is
deduplicated and sorted into lexicographic order before emission; the
canonical list is sorted and duplicate-free with the same members, and the
operator is `set` for exactly one distinct sink and `into` otherwise. -/
theorem set_secondary_channel_canonical (p : Proc) (source : String)
    (l1 l2 : List String) (h : ∀ x, x ∈ l1 ↔ x ∈ l2) :
    set_secondary_channel p source l1 = set_secondary_channel p source l2 ∧
    List.Sorted (fun a b => a ≤ b) (sortedDedup l1) ∧
    (sortedDedup l1).Nodup ∧
    (∀ x, x ∈ sortedDedup l1 ↔ x ∈ l1) ∧
    (set_secondary_channel p source l1).forks =
      p.forks ++ [forkDecl (source ++ "_" ++ pyStrOpt p.pid)
        (if l1.dedup.length = 1 then "set" else "into") (sortedDedup l1)] := by
  refine ⟨?_, sortedDedup_sorted l1, sortedDedup_nodup l1, sortedDedup_mem l1, ?_⟩
  · have he : sortedDedup l1 = sortedDedup l2 := sortedDedup_ext l1 l2 h
    simp [set_secondary_channel, he]
  · simp [set_secondary_channel, forkOp, sortedDedup, List.length_insertionSort]

/-- C4, witness on the sink lists of the spec example (`b`, `a`, `a`
against `a`, `b`). -/
theorem set_secondary_channel_canonical_witness :
    (∀ x, x ∈ ["b", "a", "a"] ↔ x ∈ ["a", "b"]) ∧
    (set_secondary_channel fastqcCached "SIDE" ["b", "a", "a"] =
      set_secondary_channel fastqcCached "SIDE" ["a", "b"] ∧
    List.Sorted (fun a b => a ≤ b) (sortedDedup ["b", "a", "a"]) ∧
    (sortedDedup ["b", "a", "a"]).Nodup ∧
    (∀ x, x ∈ sortedDedup ["b", "a", "a"] ↔ x ∈ ["b", "a", "a"]) ∧
    (set_secondary_channel fastqcCached "SIDE" ["b", "a", "a"]).forks =
      fastqcCached.forks ++ [forkDecl ("SIDE" ++ "_" ++ pyStrOpt fastqcCached.pid)
        (if (["b", "a", "a"] : List String).dedup.length = 1 then "set" else "into")
        (sortedDedup ["b", "a", "a"])]) :=
  have hmem : ∀ x, x ∈ ["b", "a", "a"] ↔ x ∈ ["a", "b"] := by
    intro x
    simp only [List.mem_cons, List.not_mem_nil, or_false]
    tauto
  ⟨hmem, set_secondary_channel_canonical fastqcCached "SIDE" ["b", "a", "a"]
    ["a", "b"] hmem⟩

/-- C6: the channel namer produces the `_in_`/`_out_` suffixed names; the
stage position is derived as lane and pid joined by an underscore on the
first `set_channels` call, is left unchanged by later calls once a
non-empty position is cached, and every status-channel stem gains exactly
the cached position as suffix. -/
theorem channel_namer_names_and_position (p : Proc) (isuf osuf : String)
    (lane : Nat) (q : Proc) (kw : List (String × String)) (s : String)
    (hq : q.pid = some s) (hs : s ≠ "")
    (r : Proc) (hr : r.pid = none) (kw2 : List (String × String)) :
    (set_main_channel_names p isuf osuf lane).input_channel =
      some (p.template ++ "_in_" ++ isuf) ∧
    (set_main_channel_names p isuf osuf lane).output_channel =
      some (p.template ++ "_out_" ++ osuf) ∧
    (set_channels q kw).pid = some s ∧
    (set_channels q kw).status_strs =
      q.status_strs ++ q.status_channels.map (fun i => i ++ "_" ++ s) ∧
    (set_channels r kw2).pid =
      some (pyStrOptNat r.lane ++ "_" ++ pyStrOpt (pyGet kw2 "pid")) := by
  refine ⟨rfl, rfl, ?_, ?_, ?_⟩
  · simp [set_channels, pyFalsyStr, hq, hs]
  · simp [set_channels, pyFalsyStr, hq, hs, pyStrOpt]
  · simp [set_channels, pyFalsyStr, hr]

/-- C6, witness: a stage with cached position `1_2` keeps it, and a fresh
stage on lane 1 receiving pid 2 derives `1_2`. -/
theorem channel_namer_names_and_position_witness :
    (fastqcCached.pid = some "1_2" ∧ ("1_2" : String) ≠ "" ∧
      trimmomaticFresh.pid = none) ∧
    ((set_main_channel_names (Process.init "mlst") "1_2" "1_3" 1).input_channel =
      some ((Process.init "mlst").template ++ "_in_" ++ "1_2") ∧
    (set_main_channel_names (Process.init "mlst") "1_2" "1_3" 1).output_channel =
      some ((Process.init "mlst").template ++ "_out_" ++ "1_3") ∧
    (set_channels fastqcCached []).pid = some "1_2" ∧
    (set_channels fastqcCached []).status_strs =
      fastqcCached.status_strs ++
        fastqcCached.status_channels.map (fun i => i ++ "_" ++ "1_2") ∧
    (set_channels trimmomaticFresh [("pid", "2")]).pid =
      some (pyStrOptNat trimmomaticFresh.lane ++ "_" ++
        pyStrOpt (pyGet [("pid", "2")] "pid"))) :=
  ⟨⟨rfl, by decide, rfl⟩,
   channel_namer_names_and_position (Process.init "mlst") "1_2" "1_3" 1
     fastqcCached [] "1_2" rfl (by decide) trimmomaticFresh rfl [("pid", "2")]⟩

theorem set_raw_inputs_loop_spec (entries : List (String × RawInputEl)) :
    ∀ (p : Proc) (acc : List String),
      (∀ te ∈ entries, (rawLookup te.1).isSome = true) →
      ∃ qp, set_raw_inputs_loop p acc entries = some qp ∧
        qp.1.forks = p.forks ++ rawForkDecls entries ∧
        qp.2 = acc ++ entries.map (fun te => te.2.channel_str) := by
  induction entries with
  | nil =>
    intro p acc _
    exact ⟨(p, acc), rfl, by simp [rawForkDecls], by simp⟩
  | cons te rest ih =>
    rcases te with ⟨t, el⟩
    intro p acc h
    obtain ⟨rc, hrc⟩ := Option.isSome_iff_exists.mp (h (t, el) (by simp))
    have hrest : ∀ x ∈ rest, (rawLookup x.1).isSome = true := by
      intro x hx
      exact h x (by simp [hx])
    obtain ⟨qp, hqp, hforks, hacc⟩ := ih _ (acc ++ [el.channel_str]) hrest
    refine ⟨qp, ?_, ?_, ?_⟩
    · rw [set_raw_inputs_loop, hrc]
      exact hqp
    · rw [hforks]
      simp [rawForkDecls, List.append_assoc]
    · rw [hacc]
      simp

theorem set_extra_inputs_loop_spec (cdict : List (String × ExtraInfo)) :
    ∀ (p : Proc) (acc : List String),
      (∀ pi ∈ cdict, (rawLookup pi.2.input_type).isSome = true) →
      ∃ qp, set_extra_inputs_loop p acc cdict = some qp ∧
        qp.2 = acc ++ extraDecls cdict := by
  induction cdict with
  | nil =>
    intro p acc _
    exact ⟨(p, acc), rfl, by simp [extraDecls]⟩
  | cons pi rest ih =>
    rcases pi with ⟨param, info⟩
    intro p acc h
    obtain ⟨rc, hrc⟩ := Option.isSome_iff_exists.mp (h (param, info) (by simp))
    have hrest : ∀ x ∈ rest, (rawLookup x.2.input_type).isSome = true := by
      intro x hx
      exact h x (by simp [hx])
    obtain ⟨qp, hqp, hacc⟩ := ih _ _ hrest
    refine ⟨qp, ?_, ?_⟩
    · rw [set_extra_inputs_loop, hrc]
      exact hqp
    · rw [hacc]
      simp [extraDecls, hrc, List.append_assoc]

theorem dictUpdate_single {α : Type} (d : List (String × α)) (k : String)
    (v : α) : dictUpdate d [(k, v)] = dictInsert d k v := rfl

theorem sortedDedup_pair :
    sortedDedup ["b_sink", "a_sink"] = ["a_sink", "b_sink"] := by
  have h1 : ¬ (("b_sink" : String) ≤ "a_sink") := by
    rw [String.le_iff_toList_le]
    decide
  simp [sortedDedup, List.insertionSort, List.orderedInsert, h1,
    List.dedup_eq_self.mpr
      (by decide : (["b_sink", "a_sink"] : List String).Nodup)]

/-- C7, counterexample: a raw-input fan-out with sinks given as `b_sink`,
`a_sink` is emitted verbatim in that order, which differs from the
canonical (deduplicated, sorted) order that `set_secondary_channel` would
emit for the same sink set. -/
theorem raw_input_sinks_not_canonicalized :
    (set_raw_inputs (Process.init "init") [("fastq", rawCexEl)]).map
        (fun q => q.forks) =
      some ["\nIN_fastq_raw.into\x7b b_sink;a_sink \x7d\n"] ∧
    sortedDedup ["b_sink", "a_sink"] = ["a_sink", "b_sink"] ∧
    (["\nIN_fastq_raw.into\x7b b_sink;a_sink \x7d\n"] : List String) ≠
      ["\nIN_fastq_raw.into\x7b " ++ String.intercalate ";"
        (sortedDedup ["b_sink", "a_sink"]) ++ " \x7d\n"] := by
  refine ⟨by decide, sortedDedup_pair, ?_⟩
  rw [sortedDedup_pair]
  decide

/-- C7, amended: both raw-input and extra-input synthesis accumulate their
declarations in emission order, and the sink list inside each fan-out is
emitted verbatim — in the order provided, with duplicates kept and no
sorting — unlike the canonicalization `set_secondary_channel` applies. -/
theorem init_inputs_emission_order (p1 p2 : Proc)
    (entries : List (String × RawInputEl)) (cdict : List (String × ExtraInfo))
    (h1 : ∀ te ∈ entries, (rawLookup te.1).isSome = true)
    (h2 : ∀ pi ∈ cdict, (rawLookup pi.2.input_type).isSome = true) :
    (set_raw_inputs p1 entries).map (fun q => q.forks) =
      some (p1.forks ++ rawForkDecls entries) ∧
    (set_extra_inputs p2 cdict).map (fun q => pyGet q.context "extra_inputs") =
      some (some (String.intercalate "\n" (extraDecls cdict))) := by
  constructor
  · obtain ⟨qp, hqp, hforks, _⟩ := set_raw_inputs_loop_spec entries p1 [] h1
    rw [set_raw_inputs, hqp]
    simpa using hforks
  · obtain ⟨qp, hqp, hacc⟩ := set_extra_inputs_loop_spec cdict p2 [] h2
    rw [set_extra_inputs, hqp]
    simp only [Option.map_some']
    rw [dictUpdate_single, pyGet_dictInsert, hacc]
    simp

/-- C7, witness on one raw-input entry and one extra-input parameter. -/
theorem init_inputs_emission_order_witness :
    ((∀ te ∈ [("fastq", rawCexEl)], (rawLookup te.1).isSome = true) ∧
      (∀ pi ∈ [("fastaParam", extraCexInfo)],
        (rawLookup pi.2.input_type).isSome = true)) ∧
    ((set_raw_inputs (Process.init "init") [("fastq", rawCexEl)]).map
        (fun q => q.forks) =
      some ((Process.init "init").forks ++ rawForkDecls [("fastq", rawCexEl)]) ∧
    (set_extra_inputs (Process.init "init") [("fastaParam", extraCexInfo)]).map
        (fun q => pyGet q.context "extra_inputs") =
      some (some (String.intercalate "\n"
        (extraDecls [("fastaParam", extraCexInfo)])))) :=
  ⟨⟨by decide, by decide⟩,
   init_inputs_emission_order (Process.init "init") (Process.init "init")
     [("fastq", rawCexEl)] [("fastaParam", extraCexInfo)]
     (by decide) (by decide)⟩

/-- C8: under the builder's suffix scheme, two stages with the same
template but distinct lane/sequence coordinate pairs can never receive the
same input-channel name nor the same output-channel name from the channel
namer — the decimal coordinates contain no underscore, so the suffix is
parsed back uniquely. -/
theorem channel_names_unique (p q : Proc) (ht : p.template = q.template)
    (l1 s1 l2 s2 : Nat) (hne : (l1, s1) ≠ (l2, s2)) :
    (set_main_channel_names p (channelSuffix l1 s1) (channelSuffix l1 s1)
        l1).input_channel ≠
      (set_main_channel_names q (channelSuffix l2 s2) (channelSuffix l2 s2)
        l2).input_channel ∧
    (set_main_channel_names p (channelSuffix l1 s1) (channelSuffix l1 s1)
        l1).output_channel ≠
      (set_main_channel_names q (channelSuffix l2 s2) (channelSuffix l2 s2)
        l2).output_channel := by
  have key : channelSuffix l1 s1 ≠ channelSuffix l2 s2 := by
    intro he
    obtain ⟨hl, hs⟩ := channelSuffix_inj l1 s1 l2 s2 he
    exact hne (by rw [hl, hs])
  constructor
  · intro he
    rw [show (set_main_channel_names p (channelSuffix l1 s1)
        (channelSuffix l1 s1) l1).input_channel =
        some (p.template ++ "_in_" ++ channelSuffix l1 s1) from rfl,
      show (set_main_channel_names q (channelSuffix l2 s2)
        (channelSuffix l2 s2) l2).input_channel =
        some (q.template ++ "_in_" ++ channelSuffix l2 s2) from rfl,
      ht] at he
    exact key (string_append_left_cancel (q.template ++ "_in_") _ _
      (Option.some.inj he))
  · intro he
    rw [show (set_main_channel_names p (channelSuffix l1 s1)
        (channelSuffix l1 s1) l1).output_channel =
        some (p.template ++ "_out_" ++ channelSuffix l1 s1) from rfl,
      show (set_main_channel_names q (channelSuffix l2 s2)
        (channelSuffix l2 s2) l2).output_channel =
        some (q.template ++ "_out_" ++ channelSuffix l2 s2) from rfl,
      ht] at he
    exact key (string_append_left_cancel (q.template ++ "_out_") _ _
      (Option.some.inj he))

/-- C8, witness: lanes and sequence numbers (1,2) against (1,3) on the
same template. -/
theorem channel_names_unique_witness :
    ((Process.init "fastqc").template = (Process.init "fastqc").template ∧
      ((1, 2) : Nat × Nat) ≠ (1, 3)) ∧
    ((set_main_channel_names (Process.init "fastqc") (channelSuffix 1 2)
        (channelSuffix 1 2) 1).input_channel ≠
      (set_main_channel_names (Process.init "fastqc") (channelSuffix 1 3)
        (channelSuffix 1 3) 1).input_channel ∧
    (set_main_channel_names (Process.init "fastqc") (channelSuffix 1 2)
        (channelSuffix 1 2) 1).output_channel ≠
      (set_main_channel_names (Process.init "fastqc") (channelSuffix 1 3)
        (channelSuffix 1 3) 1).output_channel) :=
  ⟨⟨rfl, by decide⟩,
   channel_names_unique (Process.init "fastqc") (Process.init "fastqc") rfl
     1 2 1 3 (by decide)⟩

/-- C10: for a non-empty input-type key, `get_user_channel` returns `None`
and leaves the stage's parameter table untouched when the key is not in
the type registry, and otherwise returns the caller's channel merged with
the registry entry while registering the type's default value and
description under its parameter name. -/
theorem get_user_channel_registry (p : Proc) (ic k : String) (hk : k ≠ "") :
    get_user_channel p ic (some k) =
      (match rawLookup k with
       | none => (none, p)
       | some ci =>
         (some ⟨ic, ci.params, ci.description, ci.default_value, ci.channel,
            ci.channel_str, ci.checks⟩,
          { p with params := dictInsert p.params ci.params (ParamVal.mk ci.default_value ci.description) })) := by
  cases hcl : rawLookup k <;> simp [get_user_channel, hk, hcl]

/-- C10, witness at the registered key `fastq` (and, for the negative arm,
the unregistered key `unknown_type`). -/
theorem get_user_channel_registry_witness :
    (("fastq" : String) ≠ "" ∧
      get_user_channel (Process.init "integrity_coverage") "MAIN_raw"
        (some "fastq") =
      (match rawLookup "fastq" with
       | none => (none, Process.init "integrity_coverage")
       | some ci =>
         (some ⟨"MAIN_raw", ci.params, ci.description, ci.default_value,
            ci.channel, ci.channel_str, ci.checks⟩,
          { Process.init "integrity_coverage" with
              params := dictInsert (Process.init "integrity_coverage").params ci.params (ParamVal.mk ci.default_value ci.description) }))) ∧
    (("unknown_type" : String) ≠ "" ∧
      get_user_channel (Process.init "integrity_coverage") "MAIN_raw"
        (some "unknown_type") = (none, Process.init "integrity_coverage")) :=
  ⟨⟨by decide,
    get_user_channel_registry (Process.init "integrity_coverage") "MAIN_raw"
      "fastq" (by decide)⟩,
   ⟨by decide, by
    have := get_user_channel_registry (Process.init "integrity_coverage")
      "MAIN_raw" "unknown_type" (by decide)
    simpa [show rawLookup "unknown_type" = none from rfl] using this⟩⟩
